import Mathlib

/- Shallow embedding of the terrain3d-rs clipmap core.

   Sources:
   - src/hellobindings/src/terrain_3d/geoclipmap.rs   (GeoClipMap::generate)
   - src/hellobindings/src/terrain_3d/terrain_3d_core.rs (Terrain3D::snap,
     Terrain3D::process, Terrain3D::build)

   Modelling conventions:
   - real_t (f32) is modelled as ℚ; usize / i32 loop counters and buffer
     positions as ℕ (all emitted index values are non-negative and far below
     the i32 range for the resolutions quantified over).
   - PackedVector3Array::resize zero-fills, so a freshly resized vertex
     buffer is List.replicate with the zero vector.
   - Vector2::distance_to(p) > 0.2 is modelled by comparing squared
     distance with (1/5)^2, which is equivalent for non-negative reals.
-/

namespace Terrain3DRs

/-- Godot Vector3 with rational components. -/
structure V3 where
  x : ℚ
  y : ℚ
  z : ℚ
deriving DecidableEq

def V3.add (a b : V3) : V3 := ⟨a.x + b.x, a.y + b.y, a.z + b.z⟩

def V3.sub (a b : V3) : V3 := ⟨a.x - b.x, a.y - b.y, a.z - b.z⟩

/-- Scalar multiple of a vector (Vector3 * real_t). -/
def V3.smul (c : ℚ) (a : V3) : V3 := ⟨c * a.x, c * a.y, c * a.z⟩

/-- Godot Aabb: position corner plus (componentwise non-negative) size. -/
structure Aabb where
  position : V3
  size : V3
deriving DecidableEq

/-- Godot Aabb::expand(to_point): returns a new box grown to include the
point.  It is a pure function; the caller must use the returned value. -/
def Aabb.expand (b : Aabb) (p : V3) : Aabb :=
  let lox := min b.position.x p.x
  let loy := min b.position.y p.y
  let loz := min b.position.z p.z
  let hix := max (b.position.x + b.size.x) p.x
  let hiy := max (b.position.y + b.size.y) p.y
  let hiz := max (b.position.z + b.size.z) p.z
  ⟨⟨lox, loy, loz⟩, ⟨hix - lox, hiy - loy, hiz - loz⟩⟩

/-- Membership of a point in a box (inclusive on both faces). -/
def Aabb.containsPoint (b : Aabb) (p : V3) : Prop :=
  b.position.x ≤ p.x ∧ p.x ≤ b.position.x + b.size.x ∧
  b.position.y ≤ p.y ∧ p.y ≤ b.position.y + b.size.y ∧
  b.position.z ≤ p.z ∧ p.z ≤ b.position.z + b.size.z

instance (b : Aabb) (p : V3) : Decidable (b.containsPoint p) := by
  unfold Aabb.containsPoint
  infer_instance

/-- One generated mesh: vertex buffer, triangle-list index buffer, and the
custom bounding box handed to the rendering server. -/
structure Mesh where
  vertices : List V3
  indices : List ℕ
  aabb : Aabb
deriving DecidableEq

/- ------------------------------------------------------------------ -/
/- GeoClipMap::generate (geoclipmap.rs)                               -/
/- ------------------------------------------------------------------ -/

namespace GeoClipMap

def patchVertResolution (t : ℕ) : ℕ := t + 1

def clipmapResolution (t : ℕ) : ℕ := t * 4 + 1

def clipmapVertResolution (t : ℕ) : ℕ := clipmapResolution t + 1

/-- `patch_2d(x, y, res) = y * res + x`. -/
def patch2d (x y res : ℕ) : ℕ := y * res + x

/-- Tile vertex grid: `for y { for x { push (x, 0, y) } }`. -/
def tileVertices (t : ℕ) : List V3 :=
  (List.range (patchVertResolution t)).flatMap fun y =>
    (List.range (patchVertResolution t)).map fun x => (⟨x, 0, y⟩ : V3)

/-- Tile index buffer: two triangles per quad in row-major patch order. -/
def tileIndices (t : ℕ) : List ℕ :=
  (List.range t).flatMap fun y =>
    (List.range t).flatMap fun x =>
      [patch2d x y (patchVertResolution t),
       patch2d (x + 1) (y + 1) (patchVertResolution t),
       patch2d x (y + 1) (patchVertResolution t),
       patch2d x y (patchVertResolution t),
       patch2d (x + 1) y (patchVertResolution t),
       patch2d (x + 1) (y + 1) (patchVertResolution t)]

/-- The tile mesh box: `Aabb::new(ZERO, (patch_vert_resolution, 0.1, patch_vert_resolution))`. -/
def tileAabb (t : ℕ) : Aabb :=
  ⟨⟨0, 0, 0⟩, ⟨(patchVertResolution t : ℚ), 1/10, (patchVertResolution t : ℚ)⟩⟩

/-- The box handed to create_mesh for the filler, trim, cross and seam
meshes.  The source calls `aabb.expand(v)` on every emitted vertex but
discards the returned value (Godot's `Aabb::expand` is pure and the local
`aabb` binding is immutable), so each of the four later meshes is created
with the unmodified tile box. -/
def passedAabb (t : ℕ) : Aabb := tileAabb t

/-- Filler vertices: four arms, each `patch_vert_resolution` long, two
vertices per step, in the order +X, +Z, -X, -Z of the source loops. -/
def fillerVertices (t : ℕ) : List V3 :=
  let o := t
  ((List.range (patchVertResolution t)).flatMap fun i =>
    [(⟨(o + i + 1 : ℕ), 0, 0⟩ : V3), ⟨(o + i + 1 : ℕ), 0, 1⟩])
  ++ ((List.range (patchVertResolution t)).flatMap fun i =>
    [(⟨1, 0, (o + i + 1 : ℕ)⟩ : V3), ⟨0, 0, (o + i + 1 : ℕ)⟩])
  ++ ((List.range (patchVertResolution t)).flatMap fun i =>
    [(⟨-((o + i : ℕ) : ℚ), 0, 1⟩ : V3), ⟨-((o + i : ℕ) : ℚ), 0, 0⟩])
  ++ ((List.range (patchVertResolution t)).flatMap fun i =>
    [(⟨0, 0, -((o + i : ℕ) : ℚ)⟩ : V3), ⟨1, 0, -((o + i : ℕ) : ℚ)⟩])

/-- Filler index buffer: `for i in 0..tile_resolution*4`, `arm = i / tile_resolution`,
corners `(arm+i)*2 + {0,1,2,3}`, winding alternating with the arm parity. -/
def fillerIndices (t : ℕ) : List ℕ :=
  (List.range (t * 4)).flatMap fun i =>
    let arm := i / t
    let bl := (arm + i) * 2 + 0
    let br := (arm + i) * 2 + 1
    let tl := (arm + i) * 2 + 2
    let tr := (arm + i) * 2 + 3
    if arm % 2 = 0 then [br, bl, tr, bl, tl, tr] else [br, bl, tl, br, tl, tr]

/-- Trim vertices: vertical arm of `clipmap_vert_resolution + 1` steps then
horizontal arm of `clipmap_vert_resolution` steps, all shifted by
`-0.5 * (clipmap_vert_resolution + 1)` on x and z. -/
def trimVertices (t : ℕ) : List V3 :=
  let cvr := clipmapVertResolution t
  let ox : ℚ := 1/2 * ((cvr : ℚ) + 1)
  ((List.range (cvr + 1)).flatMap fun i =>
    [(⟨0 - ox, 0, ((cvr : ℚ) - (i : ℚ)) - ox⟩ : V3),
     ⟨1 - ox, 0, ((cvr : ℚ) - (i : ℚ)) - ox⟩])
  ++ ((List.range cvr).flatMap fun i =>
    [(⟨((i : ℚ) + 1) - ox, 0, 0 - ox⟩ : V3),
     ⟨((i : ℚ) + 1) - ox, 0, 1 - ox⟩])

/-- Trim index buffer: quads down the vertical arm, then quads along the
horizontal arm offset by `start_of_horizontal = (clipmap_vert_resolution + 1) * 2`. -/
def trimIndices (t : ℕ) : List ℕ :=
  let cvr := clipmapVertResolution t
  let soh := (cvr + 1) * 2
  ((List.range cvr).flatMap fun i =>
    [i * 2 + 1, i * 2, (i + 1) * 2, (i + 1) * 2 + 1, i * 2 + 1, (i + 1) * 2])
  ++ ((List.range (cvr - 1)).flatMap fun i =>
    [soh + i * 2 + 1, soh + i * 2, soh + (i + 1) * 2,
     soh + (i + 1) * 2 + 1, soh + i * 2 + 1, soh + (i + 1) * 2])

/-- Cross vertices: horizontal strip then vertical strip, each
`2 * patch_vert_resolution` steps of two vertices, coordinates offset by
`-tile_resolution`. -/
def crossVertices (t : ℕ) : List V3 :=
  ((List.range (patchVertResolution t * 2)).flatMap fun i =>
    [(⟨(i : ℚ) - (t : ℚ), 0, 0⟩ : V3), ⟨(i : ℚ) - (t : ℚ), 0, 1⟩])
  ++ ((List.range (patchVertResolution t * 2)).flatMap fun i =>
    [(⟨0, 0, (i : ℚ) - (t : ℚ)⟩ : V3), ⟨1, 0, (i : ℚ) - (t : ℚ)⟩])

/-- Cross index buffer: the horizontal strip emits every quad; the vertical
strip (offset by `start_of_vertical = patch_vert_resolution * 4`) skips the
one quad with `i == tile_resolution`, the centre intersection. -/
def crossIndices (t : ℕ) : List ℕ :=
  let sov := patchVertResolution t * 4
  ((List.range (t * 2 + 1)).flatMap fun i =>
    [i * 2 + 1, i * 2, i * 2 + 3, i * 2, i * 2 + 2, i * 2 + 3])
  ++ ((List.range (t * 2 + 1)).flatMap fun i =>
    if i = t then []
    else [sov + i * 2 + 1, sov + i * 2 + 3, sov + i * 2,
          sov + i * 2, sov + i * 2 + 3, sov + i * 2 + 2])

/-- The seam vertex writes, in the order the source performs them: for each
`i` in `0..clipmap_vert_resolution`, one write per arm at buffer position
`clipmap_resolution * arm + i` (note: the stride is `clipmap_resolution`,
exactly as in the source). -/
def seamWrites (t : ℕ) : List (ℕ × V3) :=
  let cr := clipmapResolution t
  let cvr := clipmapVertResolution t
  (List.range cvr).flatMap fun i =>
    [(cr * 0 + i, (⟨(i : ℚ), 0, 0⟩ : V3)),
     (cr * 1 + i, ⟨(cvr : ℚ), 0, (i : ℚ)⟩),
     (cr * 2 + i, ⟨(cvr : ℚ) - (i : ℚ), 0, (cvr : ℚ)⟩),
     (cr * 3 + i, ⟨0, 0, (cvr : ℚ) - (i : ℚ)⟩)]

/-- Seam vertex buffer: a zero-filled buffer of `clipmap_vert_resolution * 4`
entries with the writes of `seamWrites` applied in order. -/
def seamVertices (t : ℕ) : List V3 :=
  (seamWrites t).foldl (fun acc w => acc.set w.1 w.2)
    (List.replicate (clipmapVertResolution t * 4) (⟨0, 0, 0⟩ : V3))

/-- Seam index buffer before the final fix-up: the source loop runs over
even `i` in `0..clipmap_vert_resolution*4` emitting `(i+1, i, i+2)`; with
`i = 2k` this is the triple below for `k` in `0..clipmap_vert_resolution*2`. -/
def seamIndicesRaw (t : ℕ) : List ℕ :=
  (List.range (clipmapVertResolution t * 2)).flatMap fun k =>
    [2 * k + 1, 2 * k, 2 * k + 2]

/-- Seam index buffer: the last entry is overwritten with 0
(`indices_mut[indices_mut.len() - 1] = 0`). -/
def seamIndices (t : ℕ) : List ℕ :=
  (seamIndicesRaw t).set ((seamIndicesRaw t).length - 1) 0

/-- `GeoClipMap::generate(p_size, p_levels)`: returns the five meshes
`[TILE, FILLER, TRIM, CROSS, SEAM]`.  The level count is bound to the
unused `_num_clipmap_levels` local, exactly as in the source; there is no
input-validation branch. -/
def generate (pSize pLevels : ℕ) : List Mesh :=
  let _numClipmapLevels := pLevels
  [⟨tileVertices pSize, tileIndices pSize, tileAabb pSize⟩,
   ⟨fillerVertices pSize, fillerIndices pSize, passedAabb pSize⟩,
   ⟨trimVertices pSize, trimIndices pSize, passedAabb pSize⟩,
   ⟨crossVertices pSize, crossIndices pSize, passedAabb pSize⟩,
   ⟨seamVertices pSize, seamIndices pSize, passedAabb pSize⟩]

/-- The box the spec asks for: the tile box extended with every vertex the
mesh emits.  Stated from the spec sentence for comparison with `passedAabb`;
the source computes `aabb.expand` on these vertices but discards the result. -/
def expandedAabb (t : ℕ) (vs : List V3) : Aabb :=
  vs.foldl Aabb.expand (tileAabb t)

end GeoClipMap

/- ------------------------------------------------------------------ -/
/- Terrain3D::snap / process / build (terrain_3d_core.rs)             -/
/- ------------------------------------------------------------------ -/

namespace Core

open GeoClipMap

/-- Rational floor, back in ℚ (models f32 `.floor()`). -/
def floorQ (q : ℚ) : ℚ := (⌊q⌋ : ℚ)

/-- Componentwise `Vector3::floor`. -/
def floorV3 (v : V3) : V3 := ⟨floorQ v.x, floorQ v.y, floorQ v.z⟩

/-- An instance transform as snap builds it: a uniform x/z scale, a yaw
angle in degrees taken from the rotations table (the source applies it as
`rotated(Vector3::new(0,1,0), -deg_to_rad(angle))` before scaling; only
trim instances get a non-zero entry), and a translation origin. -/
structure Transform where
  scaleXZ : ℚ
  yawDeg : ℚ
  origin : V3
deriving DecidableEq

/-- The rotations table `[0., 270., 90., 180.]` of Terrain3D::snap. -/
def rotations : List ℚ := [0, 270, 90, 180]

/-- The quadrant cells visited by the 4x4 tile loops of snap and build, in
source order (`for x { for y { ... } }`), skipping the four interior cells
when `l != 0`. -/
def quadrants (l : ℕ) : List (ℕ × ℕ) :=
  (List.range 4).flatMap fun x =>
    (List.range 4).flatMap fun y =>
      if l ≠ 0 ∧ (x = 1 ∨ x = 2) ∧ (y = 1 ∨ y = 2) then [] else [(x, y)]

/-- `snapped_pos = (p_cam_pos / scale).floor() * scale` with `scale = 1 << l`. -/
def snappedPos (cam : V3) (l : ℕ) : V3 :=
  let scale : ℚ := 2 ^ l
  ⟨floorQ (cam.x / scale) * scale, floorQ (cam.y / scale) * scale,
   floorQ (cam.z / scale) * scale⟩

/-- `next_snapped_pos = (p_cam_pos / next_scale).floor() * next_scale` with
`next_scale = scale * 2`. -/
def nextSnappedPos (cam : V3) (l : ℕ) : V3 :=
  let nextScale : ℚ := 2 ^ l * 2
  ⟨floorQ (cam.x / nextScale) * nextScale, floorQ (cam.y / nextScale) * nextScale,
   floorQ (cam.z / nextScale) * nextScale⟩

/-- One placed tile of level `l`, quadrant `q`:
`tile_tl = base + (x, 0, y) * tile_size + fill` with
`base = snapped_pos - (tsize_1, 0, tsize_1)`, `tsize = mesh_size << l`,
`tsize_1 = mesh_size << (l+1)`, and
`fill = (if x >= 2 then 1 else 0, 0, if y >= 2 then 1 else 0) * scale`. -/
def tileTransformAt (meshSize : ℕ) (cam : V3) (l : ℕ) (q : ℕ × ℕ) : Transform :=
  let scale : ℚ := 2 ^ l
  let sp := snappedPos cam l
  let tsize : ℚ := (meshSize : ℚ) * 2 ^ l
  let tsize1 : ℚ := (meshSize : ℚ) * 2 ^ (l + 1)
  let base : V3 := sp.sub ⟨tsize1, 0, tsize1⟩
  let fill : V3 := V3.smul scale ⟨if 2 ≤ q.1 then 1 else 0, 0, if 2 ≤ q.2 then 1 else 0⟩
  let tileTl := (base.add ⟨(q.1 : ℚ) * tsize, 0 * 0, (q.2 : ℚ) * tsize⟩).add fill
  ⟨scale, 0, tileTl⟩

/-- All tiles of one level, in loop order. -/
def snapLevelTiles (meshSize : ℕ) (cam : V3) (l : ℕ) : List Transform :=
  (quadrants l).map (tileTransformAt meshSize cam l)

/-- The filler transform of level `l`: scaled, origin `snapped_pos`. -/
def fillerTransform (cam : V3) (l : ℕ) : Transform :=
  ⟨2 ^ l, 0, snappedPos cam l⟩

/-- The trim rotation selector:
`r = (if d.x >= scale then 0 else 2) | (if d.z >= scale then 0 else 1)`. -/
def trimSelector (d : V3) (scale : ℚ) : ℕ :=
  (if scale ≤ d.x then 0 else 2) ||| (if scale ≤ d.z then 0 else 1)

/-- The trim transform of level `l`:
`tile_center = (scale, 0, scale) * 0.5 + snapped_pos`,
`d = p_cam_pos - next_snapped_pos`, yaw from the rotations table at the
selector. -/
def trimTransform (cam : V3) (l : ℕ) : Transform :=
  let scale : ℚ := 2 ^ l
  let tileCenter := (V3.smul (1/2) ⟨scale, 0, scale⟩).add (snappedPos cam l)
  let d := cam.sub (nextSnappedPos cam l)
  let r := trimSelector d scale
  ⟨scale, rotations.getD r 0, tileCenter⟩

/-- The seam transform of level `l`:
`next_base = next_snapped_pos - (tsize_1, 0, tsize_1)` with
`tsize_1 = mesh_size << (l + 1)`. -/
def seamTransform (meshSize : ℕ) (cam : V3) (l : ℕ) : Transform :=
  let tsize1 : ℚ := (meshSize : ℚ) * 2 ^ (l + 1)
  ⟨2 ^ l, 0, (nextSnappedPos cam l).sub ⟨tsize1, 0, tsize1⟩⟩

/-- The full set of transforms one call to Terrain3D::snap pushes to the
backend.  The tile / trim / seam lists are the flat accumulation over the
level loop, in the order the source's `tile` and `edge` counters produce;
trim and seam are skipped on the outermost level (`l == mesh_lods - 1`). -/
structure SnapResult where
  crossOrigin : V3
  tiles : List Transform
  fillers : List Transform
  trims : List Transform
  seams : List Transform
deriving DecidableEq

/-- `Terrain3D::snap(p_cam_pos)`: y is forced to 0 first; the cross gets a
pure translation to `p_cam_pos.floor()`. -/
def snap (meshSize meshLods : ℕ) (pCamPos : V3) : SnapResult :=
  let cam : V3 := ⟨pCamPos.x, 0, pCamPos.z⟩
  { crossOrigin := floorV3 cam
    tiles := (List.range meshLods).flatMap fun l => snapLevelTiles meshSize cam l
    fillers := (List.range meshLods).map fun l => fillerTransform cam l
    trims := (List.range meshLods).flatMap fun l =>
      if l + 1 = meshLods then [] else [trimTransform cam l]
    seams := (List.range meshLods).flatMap fun l =>
      if l + 1 = meshLods then [] else [seamTransform meshSize cam l] }

/-- The instance lists Terrain3D::build creates, one entry per backend
`instance_create2` call, in loop order.  Tiles are tagged with
`(level, x, y)`, fillers / trims / seams with their level. -/
structure Instances where
  cross : Option Unit
  tiles : List (ℕ × ℕ × ℕ)
  fillers : List ℕ
  trims : List ℕ
  seams : List ℕ
deriving DecidableEq

/-- `Terrain3D::build` instance creation: one cross, then per level the
4x4 tile loop (with the same interior skip as snap), one filler, and a
trim and seam on every level but the last. -/
def buildInstances (meshLods : ℕ) : Instances :=
  { cross := some ()
    tiles := (List.range meshLods).flatMap fun l =>
      (quadrants l).map fun q => (l, q.1, q.2)
    fillers := List.range meshLods
    trims := (List.range meshLods).flatMap fun l =>
      if l + 1 = meshLods then [] else [l]
    seams := (List.range meshLods).flatMap fun l =>
      if l + 1 = meshLods then [] else [l] }

/-- The mutable per-frame state of Terrain3D that the camera path of
`process` touches: the resolution parameters, the last snapped 2D camera
position, the instance lists (created by build, never touched by process),
and the transforms most recently pushed by snap. -/
structure TState where
  meshSize : ℕ
  meshLods : ℕ
  cameraLastPosition : ℚ × ℚ
  instanceData : Instances
  transforms : Option SnapResult
deriving DecidableEq

/-- Squared 2D distance; `distance_to(p) > 0.2` is equivalent to the squared
distance exceeding `(1/5)^2`. -/
def dist2 (a b : ℚ × ℚ) : ℚ := (a.1 - b.1) ^ 2 + (a.2 - b.2) ^ 2

/-- The camera branch of `Terrain3D::process`: snap and record the new 2D
position only when the camera moved more than 0.2 world units from the
last snapped position, otherwise leave the state untouched. -/
def process (st : TState) (camPos : V3) : TState :=
  let camPos2d : ℚ × ℚ := (camPos.x, camPos.z)
  if dist2 st.cameraLastPosition camPos2d > (1/5) ^ 2 then
    { st with
      transforms := some (snap st.meshSize st.meshLods camPos)
      cameraLastPosition := camPos2d }
  else st

/-- A concrete built state with the default resolution parameters
(`mesh_size = 48`, `mesh_lods = 7`) and the camera last snapped at the
origin. -/
def stateAtOrigin : TState :=
  { meshSize := 48
    meshLods := 7
    cameraLastPosition := (0, 0)
    instanceData := buildInstances 7
    transforms := some (snap 48 7 ⟨0, 0, 0⟩) }

/-- The tile origin exactly as the spec words it: `snappedPos - tileSize*2 +
quadrant_offset*tileSize + fillCorrection`, the fill correction adding one
`scale` unit on x exactly when the quadrant x index is at least 2 and on z
exactly when the quadrant y index is at least 2. -/
def specTileOrigin (meshSize : ℕ) (cam : V3) (l : ℕ) (q : ℕ × ℕ) : V3 :=
  let scale : ℚ := 2 ^ l
  let sp := snappedPos cam l
  let tileSize : ℚ := (meshSize : ℚ) * scale
  ⟨sp.x - tileSize * 2 + (q.1 : ℚ) * tileSize + (if 2 ≤ q.1 then scale else 0),
   sp.y,
   sp.z - tileSize * 2 + (q.2 : ℚ) * tileSize + (if 2 ≤ q.2 then scale else 0)⟩

/-- The seam vertex layout the spec describes, by buffer position: arm `a`
starts at `a * clipmapVertResolution`; north `(i,0,0)`, east `(cvr,0,i)`,
south `(cvr-i,0,cvr)`, west `(0,0,cvr-i)`. -/
def specSeamVertex (t p : ℕ) : V3 :=
  let cvr := clipmapVertResolution t
  if p < cvr then ⟨(p : ℚ), 0, 0⟩
  else if p < 2 * cvr then ⟨(cvr : ℚ), 0, ((p - cvr : ℕ) : ℚ)⟩
  else if p < 3 * cvr then ⟨(cvr : ℚ) - ((p - 2 * cvr : ℕ) : ℚ), 0, (cvr : ℚ)⟩
  else ⟨0, 0, (cvr : ℚ) - ((p - 3 * cvr : ℕ) : ℚ)⟩

end Core

/- ------------------------------------------------------------------ -/
/- Helper lemmas                                                      -/
/- ------------------------------------------------------------------ -/

open GeoClipMap Core

theorem length_flatMap_const {β : Type} (n c : ℕ) (f : ℕ → List β)
    (h : ∀ i, i < n → (f i).length = c) :
    ((List.range n).flatMap f).length = n * c := by
  induction n with
  | zero => simp
  | succ m ih =>
    rw [List.range_succ, List.flatMap_append, List.length_append,
      ih (fun i hi => h i (by omega))]
    simp only [List.flatMap_cons, List.flatMap_nil, List.append_nil]
    rw [h m (by omega)]
    ring

theorem sum_range_ite_skip (n s c : ℕ) (hs : s < n) :
    ((List.range n).map fun i => if i = s then 0 else c).sum = (n - 1) * c := by
  induction n with
  | zero => omega
  | succ m ih =>
    rw [List.range_succ, List.map_append, List.sum_append]
    by_cases hm : s = m
    · have hmap : ((List.range m).map fun i => if i = s then 0 else c)
          = (List.range m).map fun _ => c :=
        List.map_congr_left fun i hi => by
          rw [List.mem_range] at hi
          have hne : i ≠ s := by omega
          simp [hne]
      rw [hmap]
      simp [List.map_const', List.sum_replicate, smul_eq_mul, hm.symm]
    · rw [ih (by omega)]
      have hne : m ≠ s := fun he => hm he.symm
      simp only [List.map_cons, List.map_nil, List.sum_cons, List.sum_nil,
        if_neg hne, Nat.add_zero]
      have h1 : 1 ≤ m := by omega
      have hs2 : m - 1 + 1 = m := by omega
      calc (m - 1) * c + c = ((m - 1) + 1) * c := by ring
        _ = m * c := by rw [hs2]
        _ = (m + 1 - 1) * c := by rw [Nat.add_sub_cancel]

theorem set_append_right {α : Type} (l1 l2 : List α) (i : ℕ) (v : α) :
    (l1 ++ l2).set (l1.length + i) v = l1 ++ l2.set i v := by
  induction l1 with
  | nil => simp
  | cons a rest ih => simp [List.set, Nat.succ_add, ih]

theorem foldl_set_length {α : Type} (ws : List (ℕ × α)) (init : List α) :
    (ws.foldl (fun acc w => acc.set w.1 w.2) init).length = init.length := by
  induction ws generalizing init with
  | nil => rfl
  | cons w rest ih => simp [List.foldl, ih, List.length_set]

theorem tileVertices_length (t : ℕ) : (tileVertices t).length = (t + 1) * (t + 1) := by
  simp [tileVertices, List.length_flatMap, Function.comp_def, patchVertResolution,
    List.map_const', List.sum_replicate, smul_eq_mul]

theorem tileIndices_length (t : ℕ) : (tileIndices t).length = t * t * 6 := by
  simp [tileIndices, List.length_flatMap, Function.comp_def,
    List.map_const', List.sum_replicate, smul_eq_mul]
  ring

theorem fillerVertices_length (t : ℕ) : (fillerVertices t).length = (t + 1) * 8 := by
  simp [fillerVertices, List.length_flatMap, Function.comp_def, patchVertResolution,
    List.map_const', List.sum_replicate, smul_eq_mul]
  ring

theorem fillerIndices_length (t : ℕ) : (fillerIndices t).length = t * 24 := by
  simp [fillerIndices, List.length_flatMap, Function.comp_def, apply_ite List.length,
    List.map_const', List.sum_replicate, smul_eq_mul]
  ring

theorem trimVertices_length (t : ℕ) :
    (trimVertices t).length = (clipmapVertResolution t * 2 + 1) * 2 := by
  simp [trimVertices, List.length_flatMap, Function.comp_def,
    List.map_const', List.sum_replicate, smul_eq_mul]
  ring

theorem trimIndices_length (t : ℕ) :
    (trimIndices t).length = (clipmapVertResolution t * 2 - 1) * 6 := by
  have h1 : 1 ≤ clipmapVertResolution t := by
    unfold clipmapVertResolution clipmapResolution; omega
  simp [trimIndices, List.length_flatMap, Function.comp_def,
    List.map_const', List.sum_replicate, smul_eq_mul]
  omega

theorem crossVertices_length (t : ℕ) : (crossVertices t).length = (t + 1) * 8 := by
  simp [crossVertices, List.length_flatMap, Function.comp_def, patchVertResolution,
    List.map_const', List.sum_replicate, smul_eq_mul]
  ring

theorem crossIndices_length (t : ℕ) : (crossIndices t).length = t * 24 + 6 := by
  simp only [crossIndices, List.length_append, List.length_flatMap,
    Function.comp_def, apply_ite List.length, List.length_cons, List.length_nil]
  rw [show ((List.range (t * 2 + 1)).map fun i =>
      if i = t then (0 : ℕ) else 0 + 1 + 1 + 1 + 1 + 1 + 1).sum
      = ((List.range (t * 2 + 1)).map fun i => if i = t then 0 else 6).sum from by
    norm_num]
  rw [sum_range_ite_skip (t * 2 + 1) t 6 (by omega)]
  simp [List.map_const', List.sum_replicate, smul_eq_mul]
  ring

theorem seamVertices_length (t : ℕ) :
    (seamVertices t).length = clipmapVertResolution t * 4 := by
  unfold seamVertices
  rw [foldl_set_length]
  simp

theorem seamIndicesRaw_length (t : ℕ) :
    (seamIndicesRaw t).length = clipmapVertResolution t * 6 := by
  simp [seamIndicesRaw, List.length_flatMap, Function.comp_def,
    List.map_const', List.sum_replicate, smul_eq_mul]
  ring

theorem seamIndices_length (t : ℕ) :
    (seamIndices t).length = clipmapVertResolution t * 6 := by
  unfold seamIndices
  rw [List.length_set, seamIndicesRaw_length]

theorem seamIndices_eq (t : ℕ) :
    seamIndices t =
      ((List.range (clipmapVertResolution t * 2 - 1)).flatMap fun k =>
        [2 * k + 1, 2 * k, 2 * k + 2])
      ++ [2 * (clipmapVertResolution t * 2 - 1) + 1,
          2 * (clipmapVertResolution t * 2 - 1), 0] := by
  have hc : clipmapVertResolution t * 2 = (clipmapVertResolution t * 2 - 1) + 1 := by
    unfold clipmapVertResolution clipmapResolution; omega
  unfold seamIndices seamIndicesRaw
  conv_lhs => rw [hc, List.range_succ, List.flatMap_append]
  simp only [List.flatMap_cons, List.flatMap_nil, List.append_nil,
    List.length_append, List.length_cons, List.length_nil]
  have hA : ((List.range (clipmapVertResolution t * 2 - 1)).flatMap fun k =>
      ([2 * k + 1, 2 * k, 2 * k + 2] : List ℕ)).length
      = (clipmapVertResolution t * 2 - 1) * 3 :=
    length_flatMap_const _ 3 _ (fun i _ => rfl)
  rw [hA]
  rw [show (clipmapVertResolution t * 2 - 1) * 3 + 3 - 1
      = (clipmapVertResolution t * 2 - 1) * 3 + 2 from by omega]
  rw [← hA, set_append_right]
  rfl

theorem quadrants_length (l : ℕ) : (quadrants l).length = if l = 0 then 16 else 12 := by
  cases l with
  | zero => rfl
  | succ n =>
    have hq : quadrants (n + 1) = quadrants 1 := by
      unfold quadrants
      simp
    rw [hq]
    rfl

theorem buildTiles_length (n : ℕ) :
    ((List.range n).flatMap fun l => (quadrants l).map fun q => (l, q.1, q.2)).length
      = if n = 0 then 0 else 12 * n + 4 := by
  induction n with
  | zero => simp
  | succ m ih =>
    rw [List.range_succ, List.flatMap_append]
    simp only [List.flatMap_cons, List.flatMap_nil, List.append_nil,
      List.length_append, ih, List.length_map, quadrants_length]
    by_cases hm : m = 0
    · subst hm; simp
    · simp only [hm, if_false, Nat.succ_ne_zero]
      omega

theorem skip_last_length {β : Type} (n : ℕ) (f : ℕ → β) :
    ((List.range n).flatMap fun l => if l + 1 = n then [] else [f l]).length = n - 1 := by
  cases n with
  | zero => rfl
  | succ m =>
    rw [List.length_flatMap]
    have hmap : List.map (List.length ∘ fun l => if l + 1 = m + 1 then ([] : List β) else [f l])
        (List.range (m + 1))
        = (List.range (m + 1)).map fun i => if i = m then 0 else 1 := by
      apply List.map_congr_left
      intro i hi
      rw [List.mem_range] at hi
      by_cases him : i = m
      · simp [him]
      · simp [him, show ¬(i + 1 = m + 1) from by omega]
    rw [hmap, sum_range_ite_skip (m + 1) m 1 (by omega)]
    omega

/- ------------------------------------------------------------------ -/
/- Claim theorems                                                     -/
/- ------------------------------------------------------------------ -/

/-- C2: for every tileResolution >= 1 and ringCount >= 1, generate returns
exactly 5 meshes (TILE, FILLER, TRIM, CROSS, SEAM) whose vertex and index
counts are the closed forms of the construction rules: TILE has
(tileResolution+1)^2 vertices and tileResolution^2*6 indices, FILLER
(tileResolution+1)*8 and tileResolution*24, TRIM
(clipmapVertResolution*2+1)*2 and (clipmapVertResolution*2-1)*6, CROSS
(tileResolution+1)*8 and tileResolution*24+6, SEAM clipmapVertResolution*4
and clipmapVertResolution*6. -/
theorem c2_generate_mesh_counts (t lods : ℕ) (ht : 1 ≤ t) (hl : 1 ≤ lods) :
    (generate t lods).length = 5 ∧
    (generate t lods).map (fun m => (m.vertices.length, m.indices.length)) =
      [((t + 1) ^ 2, t ^ 2 * 6),
       ((t + 1) * 8, t * 24),
       ((clipmapVertResolution t * 2 + 1) * 2, (clipmapVertResolution t * 2 - 1) * 6),
       ((t + 1) * 8, t * 24 + 6),
       (clipmapVertResolution t * 4, clipmapVertResolution t * 6)] := by
  refine ⟨rfl, ?_⟩
  simp [generate, tileVertices_length, tileIndices_length, fillerVertices_length,
    fillerIndices_length, trimVertices_length, trimIndices_length,
    crossVertices_length, crossIndices_length, seamVertices_length,
    seamIndices_length, pow_two]

/-- Witness for c2_generate_mesh_counts at tileResolution 1, ringCount 1. -/
theorem c2_generate_mesh_counts_witness :
    (generate 1 1).length = 5 ∧
    (generate 1 1).map (fun m => (m.vertices.length, m.indices.length)) =
      [((1 + 1) ^ 2, 1 ^ 2 * 6),
       ((1 + 1) * 8, 1 * 24),
       ((clipmapVertResolution 1 * 2 + 1) * 2, (clipmapVertResolution 1 * 2 - 1) * 6),
       ((1 + 1) * 8, 1 * 24 + 6),
       (clipmapVertResolution 1 * 4, clipmapVertResolution 1 * 6)] :=
  c2_generate_mesh_counts 1 1 (by decide) (by decide)

/-- C5 counterexample: the claim says generate fails fast with an
InvalidParameter error for tileResolution < 1 and returns no mesh set; in
the source there is no validation branch at all, and tileResolution 0
yields a full (degenerate) five-mesh set. -/
theorem c5_counterexample :
    (generate 0 7).length = 5 ∧
    (generate 0 7).map (fun m => (m.vertices.length, m.indices.length)) =
      [(1, 0), (8, 0), (10, 18), (8, 6), (8, 12)] := by
  constructor
  · rfl
  · decide

/-- C5 amended: generate has no input-validation or failure path of its
own: for every tileResolution (including values below 1) and every level
count it returns the full five-mesh set; only the backend resource-creation
calls it makes can fail. -/
theorem c5_generate_never_fails (t lods : ℕ) : (generate t lods).length = 5 := rfl

/-- C8: after a build with ringCount levels the instance counts are exactly
CROSS = 1, TILE = 16*ringCount - 4*(ringCount-1), FILLER = ringCount,
TRIM = SEAM = ringCount - 1, and the per-frame camera update never touches
the instance lists (it only replaces transforms). -/
theorem c8_instance_counts (lods : ℕ) (h : 1 ≤ lods) :
    (buildInstances lods).tiles.length = 16 * lods - 4 * (lods - 1) ∧
    (buildInstances lods).fillers.length = lods ∧
    (buildInstances lods).trims.length = lods - 1 ∧
    (buildInstances lods).seams.length = lods - 1 ∧
    (buildInstances lods).cross = some () ∧
    (∀ st cam, (process st cam).instanceData = st.instanceData) := by
  refine ⟨?_, ?_, ?_, ?_, rfl, ?_⟩
  · show ((List.range lods).flatMap fun l => (quadrants l).map fun q => (l, q.1, q.2)).length = _
    rw [buildTiles_length, if_neg (by omega)]
    omega
  · simp [buildInstances]
  · exact skip_last_length lods (fun l => l)
  · exact skip_last_length lods (fun l => l)
  · intro st cam
    unfold process
    dsimp only
    split <;> rfl

/-- Witness for c8_instance_counts at ringCount 1, with the transform-only
conjunct instantiated at a concrete state and camera position. -/
theorem c8_instance_counts_witness :
    (buildInstances 1).tiles.length = 16 * 1 - 4 * (1 - 1) ∧
    (buildInstances 1).fillers.length = 1 ∧
    (buildInstances 1).trims.length = 1 - 1 ∧
    (buildInstances 1).seams.length = 1 - 1 ∧
    (buildInstances 1).cross = some () ∧
    (process stateAtOrigin ⟨5, 0, 5⟩).instanceData = stateAtOrigin.instanceData :=
  ⟨(c8_instance_counts 1 (by decide)).1,
   (c8_instance_counts 1 (by decide)).2.1,
   (c8_instance_counts 1 (by decide)).2.2.1,
   (c8_instance_counts 1 (by decide)).2.2.2.1,
   (c8_instance_counts 1 (by decide)).2.2.2.2.1,
   (c8_instance_counts 1 (by decide)).2.2.2.2.2 stateAtOrigin ⟨5, 0, 5⟩⟩

/-- C10: the five meshes generate produces do not depend on the level
count argument, which generate binds to an unused local: for any two level
counts the mesh data is identical. -/
theorem c10_generate_levels_irrelevant (t l1 l2 : ℕ)
    (ht : 1 ≤ t) (h1 : 1 ≤ l1) (h2 : 1 ≤ l2) :
    generate t l1 = generate t l2 := rfl

/-- Witness for c10_generate_levels_irrelevant at tileResolution 1,
level counts 1 and 2. -/
theorem c10_generate_levels_irrelevant_witness : generate 1 1 = generate 1 2 :=
  c10_generate_levels_irrelevant 1 1 2 (by decide) (by decide) (by decide)

theorem patch2d_lt (t a b : ℕ) (ha : a ≤ t) (hb : b ≤ t) :
    patch2d b a (t + 1) < (t + 1) * (t + 1) := by
  unfold patch2d
  have h1 : a * (t + 1) ≤ t * (t + 1) := Nat.mul_le_mul_right (t + 1) ha
  have h2 : (t + 1) * (t + 1) = t * (t + 1) + (t + 1) := by ring
  omega

theorem tileIndices_bound (t i : ℕ) (hi : i ∈ tileIndices t) :
    i < (t + 1) * (t + 1) := by
  unfold tileIndices at hi
  rw [List.mem_flatMap] at hi
  obtain ⟨y, hy, hi⟩ := hi
  rw [List.mem_range] at hy
  rw [List.mem_flatMap] at hi
  obtain ⟨x, hx, hi⟩ := hi
  rw [List.mem_range] at hx
  unfold patchVertResolution at hi
  simp only [List.mem_cons, List.not_mem_nil, or_false] at hi
  rcases hi with h | h | h | h | h | h <;> subst h <;>
    exact patch2d_lt t _ _ (by omega) (by omega)

theorem fillerIndices_bound (t i : ℕ) (ht : 1 ≤ t) (hi : i ∈ fillerIndices t) :
    i < (t + 1) * 8 := by
  unfold fillerIndices at hi
  rw [List.mem_flatMap] at hi
  obtain ⟨k, hk, hi⟩ := hi
  rw [List.mem_range] at hk
  have h4 : k / t < 4 := (Nat.div_lt_iff_lt_mul (by omega)).mpr (by omega)
  dsimp only at hi
  set a := k / t with ha
  split at hi <;>
    (simp only [List.mem_cons, List.not_mem_nil, or_false] at hi;
     rcases hi with h | h | h | h | h | h <;> subst h <;> omega)

theorem trimIndices_bound (t i : ℕ) (hi : i ∈ trimIndices t) :
    i < (clipmapVertResolution t * 2 + 1) * 2 := by
  simp only [trimIndices] at hi
  have hc1 : 1 ≤ clipmapVertResolution t := by
    unfold clipmapVertResolution clipmapResolution; omega
  rw [List.mem_append] at hi
  rcases hi with hi | hi <;>
    (rw [List.mem_flatMap] at hi;
     obtain ⟨k, hk, hi⟩ := hi;
     rw [List.mem_range] at hk;
     simp only [List.mem_cons, List.not_mem_nil, or_false] at hi;
     rcases hi with h | h | h | h | h | h <;> subst h <;> omega)

theorem crossIndices_bound (t i : ℕ) (hi : i ∈ crossIndices t) :
    i < (t + 1) * 8 := by
  simp only [crossIndices, patchVertResolution] at hi
  rw [List.mem_append] at hi
  rcases hi with hi | hi
  · rw [List.mem_flatMap] at hi
    obtain ⟨k, hk, hi⟩ := hi
    rw [List.mem_range] at hk
    simp only [List.mem_cons, List.not_mem_nil, or_false] at hi
    rcases hi with h | h | h | h | h | h <;> subst h <;> omega
  · rw [List.mem_flatMap] at hi
    obtain ⟨k, hk, hi⟩ := hi
    rw [List.mem_range] at hk
    by_cases hkt : k = t
    · rw [if_pos hkt] at hi
      simp at hi
    · rw [if_neg hkt] at hi
      simp only [List.mem_cons, List.not_mem_nil, or_false] at hi
      rcases hi with h | h | h | h | h | h <;> subst h <;> omega

theorem seamIndices_bound (t i : ℕ) (hi : i ∈ seamIndices t) :
    i < clipmapVertResolution t * 4 := by
  rw [seamIndices_eq] at hi
  have hc1 : 1 ≤ clipmapVertResolution t := by
    unfold clipmapVertResolution clipmapResolution; omega
  rw [List.mem_append] at hi
  rcases hi with hi | hi
  · rw [List.mem_flatMap] at hi
    obtain ⟨k, hk, hi⟩ := hi
    rw [List.mem_range] at hk
    simp only [List.mem_cons, List.not_mem_nil, or_false] at hi
    rcases hi with h | h | h <;> subst h <;> omega
  · simp only [List.mem_cons, List.not_mem_nil, or_false] at hi
    rcases hi with h | h | h <;> subst h <;> omega

/-- C3: for tileResolution >= 1, every index value any of the five meshes
emits lies within [0, vertexCount) of that mesh's vertex buffer; for the
seam this holds because the final fan index, which the loop writes as
4*clipmapVertResolution, is overwritten with 0 before the buffer is handed
to the backend. -/
theorem c3_indices_in_range (t lods : ℕ) (ht : 1 ≤ t) :
    ∀ m ∈ generate t lods, ∀ i ∈ m.indices, i < m.vertices.length := by
  intro m hm i hi
  simp only [generate, List.mem_cons, List.not_mem_nil, or_false] at hm
  rcases hm with h | h | h | h | h <;> subst h <;> dsimp only at hi ⊢
  · rw [tileVertices_length]
    exact tileIndices_bound t i hi
  · rw [fillerVertices_length]
    exact fillerIndices_bound t i ht hi
  · rw [trimVertices_length]
    exact trimIndices_bound t i hi
  · rw [crossVertices_length]
    exact crossIndices_bound t i hi
  · rw [seamVertices_length]
    exact seamIndices_bound t i hi

/-- Witness for c3_indices_in_range at tileResolution 1, ringCount 1, the
tile mesh, index value 3. -/
theorem c3_indices_in_range_witness :
    (⟨tileVertices 1, tileIndices 1, tileAabb 1⟩ : Mesh) ∈ generate 1 1 ∧
    3 ∈ (⟨tileVertices 1, tileIndices 1, tileAabb 1⟩ : Mesh).indices ∧
    3 < (⟨tileVertices 1, tileIndices 1, tileAabb 1⟩ : Mesh).vertices.length :=
  ⟨by simp [generate], by decide,
   c3_indices_in_range 1 1 (by decide) ⟨tileVertices 1, tileIndices 1, tileAabb 1⟩
     (by simp [generate]) 3 (by decide)⟩

/-- C4: the TRIM rotation selector is the deterministic pure function
r = (d.x < scale ? 2 : 0) | (d.z < scale ? 1 : 0) of d and scale, always
one of 0, 1, 2, 3, and those values select yaw angles 0, 270, 90, 180
degrees from the rotations table; the trim transform of level l carries
rotations[r] for d = camPos - nextSnappedPos (the source applies the angle
as rotateY of minus the angle) with origin snappedPos + (scale,0,scale)*0.5. -/
theorem c4_trim_rotation (cam : V3) (l : ℕ) (d : V3) (s : ℚ) :
    trimSelector d s = ((if d.x < s then 2 else 0) ||| (if d.z < s then 1 else 0)) ∧
    trimSelector d s < 4 ∧
    rotations = [0, 270, 90, 180] ∧
    ((trimTransform cam l).yawDeg = 0 ∨ (trimTransform cam l).yawDeg = 270 ∨
      (trimTransform cam l).yawDeg = 90 ∨ (trimTransform cam l).yawDeg = 180) ∧
    (trimTransform cam l).yawDeg
      = rotations.getD (trimSelector (cam.sub (nextSnappedPos cam l)) (2 ^ l)) 0 ∧
    (trimTransform cam l).origin
      = (snappedPos cam l).add (V3.smul (1/2) ⟨2 ^ l, 0, 2 ^ l⟩) := by
  have hswap : ∀ (q c : ℚ) (a b : ℕ),
      (if q < c then a else b) = (if c ≤ q then b else a) := by
    intro q c a b
    split_ifs with h1 h2 h3 <;> first | rfl | (exfalso; linarith)
  refine ⟨?_, ?_, rfl, ?_, rfl, ?_⟩
  · rw [hswap d.x s 2 0, hswap d.z s 1 0]
    rfl
  · unfold trimSelector
    split_ifs <;> decide
  · have hr : trimSelector (cam.sub (nextSnappedPos cam l)) (2 ^ l) < 4 := by
      unfold trimSelector
      split_ifs <;> decide
    have hy : (trimTransform cam l).yawDeg
        = rotations.getD (trimSelector (cam.sub (nextSnappedPos cam l)) (2 ^ l)) 0 := rfl
    rw [hy]
    have hcases : trimSelector (cam.sub (nextSnappedPos cam l)) (2 ^ l) = 0 ∨
        trimSelector (cam.sub (nextSnappedPos cam l)) (2 ^ l) = 1 ∨
        trimSelector (cam.sub (nextSnappedPos cam l)) (2 ^ l) = 2 ∨
        trimSelector (cam.sub (nextSnappedPos cam l)) (2 ^ l) = 3 := by omega
    rcases hcases with h | h | h | h <;> rw [h] <;> simp [rotations]
  · unfold trimTransform V3.add V3.smul
    dsimp only
    simp only [V3.mk.injEq]
    refine ⟨by ring, by ring, by ring⟩

/-- C7: the per-frame camera update skips the snap, leaving the whole state
(all transforms and the last snapped position) unchanged, whenever the
squared 2D distance between the camera and the last snapped position is at
most 0.2 squared; and running the update twice with the same camera
position equals running it once (the second call is a no-op). -/
theorem c7_process_skip_idempotent (st : TState) (cam : V3) :
    (dist2 st.cameraLastPosition (cam.x, cam.z) ≤ (1/5) ^ 2 → process st cam = st) ∧
    process (process st cam) cam = process st cam := by
  constructor
  · intro h
    unfold process
    dsimp only
    rw [if_neg (not_lt.mpr h)]
  · by_cases hc : dist2 st.cameraLastPosition (cam.x, cam.z) > (1/5) ^ 2
    · have h1 : process st cam
          = { st with transforms := some (snap st.meshSize st.meshLods cam),
                      cameraLastPosition := (cam.x, cam.z) } := by
        unfold process
        dsimp only
        rw [if_pos hc]
      rw [h1]
      unfold process
      dsimp only
      rw [if_neg (show ¬ dist2 (cam.x, cam.z) (cam.x, cam.z) > (1/5) ^ 2 by
        simp [dist2])]
    · have h1 : process st cam = st := by
        unfold process
        dsimp only
        rw [if_neg hc]
      rw [h1]
      exact h1

/-- Witness for c7_process_skip_idempotent: the camera last snapped at the
origin moves to (0.1, 0, 0); the squared distance 1/100 is below the
threshold, the snap is skipped, and a repeated call changes nothing. -/
theorem c7_process_skip_idempotent_witness :
    process stateAtOrigin ⟨1/10, 0, 0⟩ = stateAtOrigin ∧
    process (process stateAtOrigin ⟨1/10, 0, 0⟩) ⟨1/10, 0, 0⟩
      = process stateAtOrigin ⟨1/10, 0, 0⟩ :=
  ⟨(c7_process_skip_idempotent stateAtOrigin ⟨1/10, 0, 0⟩).1
      (by norm_num [stateAtOrigin, dist2]),
   (c7_process_skip_idempotent stateAtOrigin ⟨1/10, 0, 0⟩).2⟩

/-- C1: snap places, per level l, 16 tiles (l = 0) or 12 tiles (l > 0),
and every placed tile's origin is snappedPos - tileSize*2 +
quadrant_offset*tileSize + fillCorrection, with snappedPos =
floor(camPos/2^l)*2^l and the fill correction adding one scale (2^l) unit
on the x (resp. z) axis exactly when the quadrant x (resp. y) index is at
least 2; in particular moving the camera from (0,0,0) to (1,0,0) with
tileResolution 48 shifts every level-0 tile origin by exactly one unit
along x and leaves every level-1 tile origin unchanged. -/
theorem c1_snap_tile_placement (ms lods : ℕ) (cam : V3) (l : ℕ) :
    (snap ms lods cam).tiles
      = (List.range lods).flatMap (fun lv => snapLevelTiles ms ⟨cam.x, 0, cam.z⟩ lv) ∧
    (snapLevelTiles ms ⟨cam.x, 0, cam.z⟩ l).length = (if l = 0 then 16 else 12) ∧
    snapLevelTiles ms ⟨cam.x, 0, cam.z⟩ l
      = (quadrants l).map (fun q =>
          { scaleXZ := (2 : ℚ) ^ l, yawDeg := 0,
            origin := specTileOrigin ms ⟨cam.x, 0, cam.z⟩ l q }) ∧
    snapLevelTiles 48 ⟨1, 0, 0⟩ 0
      = (snapLevelTiles 48 ⟨0, 0, 0⟩ 0).map
          (fun tr => { tr with origin := ⟨tr.origin.x + 1, tr.origin.y, tr.origin.z⟩ }) ∧
    snapLevelTiles 48 ⟨1, 0, 0⟩ 1 = snapLevelTiles 48 ⟨0, 0, 0⟩ 1 := by
  refine ⟨rfl, ?_, ?_, ?_, ?_⟩
  · unfold snapLevelTiles
    rw [List.length_map, quadrants_length]
  · unfold snapLevelTiles
    apply List.map_congr_left
    intro q hq
    unfold tileTransformAt specTileOrigin
    dsimp only
    simp only [Transform.mk.injEq, V3.add, V3.sub, V3.smul, V3.mk.injEq]
    refine ⟨trivial, trivial, ?_, ?_, ?_⟩ <;> (first | (split_ifs <;> ring) | ring)
  · unfold snapLevelTiles
    rw [List.map_map]
    apply List.map_congr_left
    intro q hq
    have h1 : snappedPos ⟨1, 0, 0⟩ 0 = ⟨1, 0, 0⟩ := by
      simp [snappedPos, floorQ, V3.mk.injEq]
    have h0 : snappedPos ⟨0, 0, 0⟩ 0 = ⟨0, 0, 0⟩ := by
      simp [snappedPos, floorQ, V3.mk.injEq]
    dsimp only [Function.comp]
    unfold tileTransformAt
    dsimp only
    rw [h1, h0]
    simp only [Transform.mk.injEq, V3.add, V3.sub, V3.smul, V3.mk.injEq]
    refine ⟨trivial, trivial, ?_, ?_, ?_⟩ <;> (first | (split_ifs <;> ring) | ring)
  · unfold snapLevelTiles
    apply List.map_congr_left
    intro q hq
    unfold tileTransformAt
    have h1 : snappedPos ⟨1, 0, 0⟩ 1 = snappedPos ⟨0, 0, 0⟩ 1 := by
      simp [snappedPos, floorQ, V3.mk.injEq]
      norm_num
    rw [h1]

theorem expand_containsPoint (b : Aabb) (p : V3) : (b.expand p).containsPoint p := by
  unfold Aabb.expand Aabb.containsPoint
  dsimp only
  refine ⟨min_le_right _ _, ?_, min_le_right _ _, ?_, min_le_right _ _, ?_⟩
  · have h := le_max_right (b.position.x + b.size.x) p.x
    linarith
  · have h := le_max_right (b.position.y + b.size.y) p.y
    linarith
  · have h := le_max_right (b.position.z + b.size.z) p.z
    linarith

theorem expand_mono (b : Aabb) (v q : V3) (h : b.containsPoint q) :
    (b.expand v).containsPoint q := by
  obtain ⟨h1, h2, h3, h4, h5, h6⟩ := h
  unfold Aabb.expand Aabb.containsPoint
  dsimp only
  refine ⟨le_trans (min_le_left _ _) h1, ?_,
    le_trans (min_le_left _ _) h3, ?_,
    le_trans (min_le_left _ _) h5, ?_⟩
  · have ha := le_max_left (b.position.x + b.size.x) v.x
    linarith
  · have ha := le_max_left (b.position.y + b.size.y) v.y
    linarith
  · have ha := le_max_left (b.position.z + b.size.z) v.z
    linarith

theorem foldl_expand_mono (vs : List V3) : ∀ (b : Aabb) (q : V3), b.containsPoint q →
    (vs.foldl Aabb.expand b).containsPoint q := by
  induction vs with
  | nil => intro b q h; exact h
  | cons v rest ih => intro b q h; exact ih _ q (expand_mono b v q h)

theorem foldl_expand_containsPoint (vs : List V3) : ∀ (b : Aabb) (p : V3), p ∈ vs →
    (vs.foldl Aabb.expand b).containsPoint p := by
  induction vs with
  | nil => intro b p hp; cases hp
  | cons v rest ih =>
    intro b p hp
    rcases List.mem_cons.mp hp with h | h
    · subst h
      exact foldl_expand_mono rest (b.expand p) p (expand_containsPoint b p)
    · exact ih _ p h

/-- C6: the claim that each mesh's box is the union of its own vertices
fails on the code: the source discards every Aabb::expand result, so the
filler mesh at tileResolution 1 is created with the unmodified tile box,
which does not contain the filler vertex (-2, 0, 0); the incrementally
expanded box the spec describes would contain it. -/
theorem c6_filler_vertex_outside_box :
    (⟨-2, 0, 0⟩ : V3) ∈ fillerVertices 1 ∧
    ¬ (passedAabb 1).containsPoint ⟨-2, 0, 0⟩ ∧
    (expandedAabb 1 (fillerVertices 1)).containsPoint ⟨-2, 0, 0⟩ := by
  have hmem : (⟨-2, 0, 0⟩ : V3) ∈ fillerVertices 1 := by decide
  exact ⟨hmem, by decide,
    foldl_expand_containsPoint (fillerVertices 1) (tileAabb 1) ⟨-2, 0, 0⟩ hmem⟩

/-- C9: the seam vertex writer strides the arms by clipmap_resolution
instead of clipmap_vert_resolution, so at tileResolution 1 buffer position
6 holds the east arm value (6, 0, 1) where the spec's clockwise perimeter
layout has (6, 0, 0), and the last three buffer entries are never written
and stay at the zero vector instead of carrying the west arm tail, e.g.
position 21 should hold (0, 0, 3). -/
theorem c9_seam_vertex_layout :
    (seamVertices 1).getD 6 ⟨9, 9, 9⟩ = ⟨6, 0, 1⟩ ∧
    specSeamVertex 1 6 = ⟨6, 0, 0⟩ ∧
    (seamVertices 1).getD 21 ⟨9, 9, 9⟩ = ⟨0, 0, 0⟩ ∧
    specSeamVertex 1 21 = ⟨0, 0, 3⟩ ∧
    (seamVertices 1).length = 24 := by
  refine ⟨by decide, ?_, by decide, ?_, by decide⟩
  · norm_num [specSeamVertex, clipmapVertResolution, clipmapResolution, V3.mk.injEq]
  · norm_num [specSeamVertex, clipmapVertResolution, clipmapResolution, V3.mk.injEq]

end Terrain3DRs
